import Mathlib

/-!
Verification development for the potatopage pagination engine.

The definitions below are a shallow embedding of the two paginators:

* `FilterablePaginator` (filterable_paginator.py): a Django-style paginator
  over an `ObjectManager` object source, with an optional post-fetch filter
  predicate, batched replay, and checkpoint/cursor caching.
* `UnifiedPaginator` (paginator.py): the page-granularity variant over a
  cursor-supporting queryset.

Modelling conventions:
* The object source is a deterministic list `src`; per the ObjectManager
  interface, a positional slice `[bottom:top]` returns those logical items,
  and a cursor fetch resumes at the raw position the cursor encodes.
  Cursors are modelled as raw positions (opaque to the paginator).
  Following GCalObjectManager, the token produced by a fetch
  (`nextPageToken`) is present exactly when more items remain, so the
  model returns `some endPos` when `endPos < src.length` and `none` at the
  end of the source.  Python truthiness of a token is modelled as
  `Option.isSome` (real tokens are non-empty opaque strings).
* The cache (django cache keyed under the query's cache_key) is a record:
  LAST_OBJ, KNOWN_OBJ_COUNT, CURSORED_OBJECTS, and the checkpoint-to-cursor
  entries.  `cache.get` of a missing key is `none`.
* The code runs under Python 2: `x >= None` is `True` for an int `x`,
  `x < None` is `False`, and `min(x, None) = None`; these comparisons are
  modelled explicitly where they occur.
* The `while` loop of `FilterablePaginator.page` need not terminate
  (re-fetching the same slice when the source yields no next token), so it
  is modelled with explicit fuel; `none` marks fuel exhaustion.
* Machine integers are Nat; every subtraction the code performs is on
  values where the Python result is non-negative, matching Nat subtraction.
-/

namespace Potatopage

/-- Configuration of a FilterablePaginator together with its object source:
the raw item list, the capability flag of the source, per_page, batch_size,
the optional filter predicate, and Django's allow_empty_first_page. -/
structure FConfig (α : Type) where
  src : List α
  supportsCursors : Bool
  perPage : Nat
  batchSize : Nat
  filterFn : Option (α → Bool)
  allowEmptyFirstPage : Bool

/-- The effective predicate: `filter(self._filter_func, results)` when a
filter function is given, identity otherwise. -/
def keepFn {α : Type} (cfg : FConfig α) : α → Bool :=
  match cfg.filterFn with
  | some f => f
  | none => fun _ => true

/-- Cached state for one query identity (one cache_key): LAST_OBJ,
KNOWN_OBJ_COUNT, CURSORED_OBJECTS (absent key read as []), and the
per-checkpoint cursor entries. -/
structure FCache where
  lastObj : Option Nat
  knownObjCount : Option Nat
  cursoredObjects : List Nat
  cursors : List (Nat × Nat)
deriving DecidableEq

/-- A cold cache: no key has ever been set. -/
def emptyFCache : FCache := ⟨none, none, [], []⟩

deriving instance DecidableEq for Except

/-- `cache.get` on the per-index cursor entries. -/
def cacheGet (m : List (Nat × Nat)) (k : Nat) : Option Nat :=
  (m.find? (fun p => p.1 == k)).map (fun p => p.2)

/-- `cache.set` on the per-index cursor entries; the newest entry for a
key shadows older ones, as in the key-value store. -/
def cacheSet (m : List (Nat × Nat)) (k v : Nat) : List (Nat × Nat) :=
  (k, v) :: m

/-- `_find_nearest_obj_with_cursor`: keep the cached checkpoints at or below
the target index; 0 when none qualifies, their maximum otherwise. -/
def findNearestObjWithCursor (cursoredObjects : List Nat) (currentObjIndex : Nat) : Nat :=
  let objLowerThanCurrent := cursoredObjects.filter (fun c => decide (c ≤ currentObjIndex))
  match objLowerThanCurrent with
  | [] => 0
  | _ :: _ => objLowerThanCurrent.foldl Nat.max 0

/-- `_get_cursor_and_offset`: resolve the nearest checkpoint, fetch its
cursor when the source supports cursors and the checkpoint is positive
(a missing entry raises CursorNotFound, recovered as no cursor), and
return the remaining offset. -/
def getCursorAndOffset {α : Type} (cfg : FConfig α) (cache : FCache) (startIndex : Nat) :
    Option Nat × Nat :=
  let objWithCursor := findNearestObjWithCursor cache.cursoredObjects startIndex
  let cursor : Option Nat :=
    if cfg.supportsCursors = true ∧ 0 < objWithCursor then cacheGet cache.cursors objWithCursor
    else none
  (cursor, startIndex - objWithCursor)

/-- `_add_obj_with_cursor_to_cached_list`: append the checkpoint to
CURSORED_OBJECTS unless already present. -/
def addCursoredObject (objList : List Nat) (objPos : Nat) : List Nat :=
  if objPos ∈ objList then objList else objList ++ [objPos]

/-- State of the batched replay loop of `FilterablePaginator.page`:
the accumulator, start_cursor, next_cursor, start_bottom, and the cache
as mutated so far.  `lastRawCount` is a ghost observer recording the raw
length of the most recent fetch; it never feeds back into control. -/
structure LoopState (α : Type) where
  filtered : List α
  startCursor : Option Nat
  nextCursor : Option Nat
  startBottom : Nat
  lastRawCount : Option Nat
  cache : FCache
deriving DecidableEq

/-- The `if next_cursor: start_cursor = next_cursor` promotion at the top
of each loop iteration. -/
def promoteCursor {α : Type} (ls : LoopState α) : Option Nat :=
  match ls.nextCursor with
  | some c => some c
  | none => ls.startCursor

/-- The raw position the iteration fetches from: the promoted cursor when
present, otherwise the positional start_bottom. -/
def effectiveFetchPos {α : Type} (ls : LoopState α) : Nat :=
  match promoteCursor ls with
  | some c => c
  | none => ls.startBottom

/-- The loop guard: `len(filtered_objects) < batch_size or
len(filtered_objects) - offset < per_page` (Python int arithmetic, so the
second disjunct is length < offset + per_page). -/
def loopCond {α : Type} (cfg : FConfig α) (offset : Nat) (ls : LoopState α) : Bool :=
  decide (ls.filtered.length < cfg.batchSize) || decide (ls.filtered.length < offset + cfg.perPage)

/-- One iteration of the replay loop.  Returns the new state and whether the
iteration broke out (raw fetch shorter than batch_size).  On a full batch
with cursor support, the next cursor is captured and its checkpoint
(`next_page_start_index`) registered and persisted; without cursor support
start_bottom advances by batch_size. -/
def loopBody {α : Type} (cfg : FConfig α) (pageStartIndex offset : Nat) (ls : LoopState α) :
    LoopState α × Bool :=
  let sc := promoteCursor ls
  let fetchPos := effectiveFetchPos ls
  let results := (cfg.src.drop fetchPos).take cfg.batchSize
  let objNext : Option Nat :=
    if fetchPos + results.length < cfg.src.length then some (fetchPos + results.length) else none
  let filtered := ls.filtered ++ results.filter (keepFn cfg)
  let nextPageStartIndex := (pageStartIndex - offset) + filtered.length
  if results.length < cfg.batchSize then
    (⟨filtered, sc, none, ls.startBottom, some results.length, ls.cache⟩, true)
  else if cfg.supportsCursors = true then
    (⟨filtered, sc, objNext, ls.startBottom, some results.length,
      { ls.cache with
        cursoredObjects := addCursoredObject ls.cache.cursoredObjects nextPageStartIndex,
        cursors :=
          match objNext with
          | some c => cacheSet ls.cache.cursors nextPageStartIndex c
          | none => ls.cache.cursors }⟩, false)
  else
    (⟨filtered, sc, none, ls.startBottom + cfg.batchSize, some results.length, ls.cache⟩, false)

/-- The replay loop with fuel; `none` marks fuel exhaustion (the source
loop can re-fetch the same slice forever when no next token is produced). -/
def loopGo {α : Type} (cfg : FConfig α) (pageStartIndex offset : Nat) :
    Nat → LoopState α → Option (LoopState α)
  | 0, ls => if loopCond cfg offset ls then none else some ls
  | fuel + 1, ls =>
    if loopCond cfg offset ls then
      let step := loopBody cfg pageStartIndex offset ls
      if step.2 then some step.1 else loopGo cfg pageStartIndex offset fuel step.1
    else some ls

/-- `page_start_index = (number - 1) * per_page`. -/
def pageStartIndexOf {α : Type} (cfg : FConfig α) (number : Nat) : Nat :=
  (number - 1) * cfg.perPage

/-- The start cursor resolved for a page request. -/
def startCursorOf {α : Type} (cfg : FConfig α) (cache : FCache) (number : Nat) : Option Nat :=
  (getCursorAndOffset cfg cache (pageStartIndexOf cfg number)).1

/-- The offset resolved for a page request. -/
def offsetOf {α : Type} (cfg : FConfig α) (cache : FCache) (number : Nat) : Nat :=
  (getCursorAndOffset cfg cache (pageStartIndexOf cfg number)).2

/-- The loop state `page` starts from: empty accumulator, the resolved
start cursor, no next cursor, start_bottom = page_start_index - offset. -/
def initLoopState {α : Type} (cfg : FConfig α) (cache : FCache) (number : Nat) : LoopState α :=
  ⟨[], startCursorOf cfg cache number, none,
    pageStartIndexOf cfg number - offsetOf cfg cache number, none, cache⟩

/-- The loop state `page` ends with, given fuel. -/
def loopOutcome {α : Type} (cfg : FConfig α) (cache : FCache) (number fuel : Nat) :
    Option (LoopState α) :=
  loopGo cfg (pageStartIndexOf cfg number) (offsetOf cfg cache number) fuel
    (initLoopState cfg cache number)

/-- Failures surfaced by `FilterablePaginator.page`: Django's EmptyPage
(raised both for a number below 1 and for a page with no results). -/
inductive FPageErr where
  | emptyPage
deriving DecidableEq

/-- The tail of `FilterablePaginator.page` after the replay loop: slice
extraction, the empty-page check, and the count bookkeeping.  It mirrors
the source: the Python 2 comparison `known_obj_count >= None` is true, a
final object count is stored when the filtered accumulator is shorter than
batch_size, and the known count is bumped by one when a next cursor is
pending. -/
def finishPage {α : Type} (cfg : FConfig α) (number pageStartIndex offset : Nat)
    (ls : LoopState α) : Except FPageErr (List α) × FCache :=
  let batchResultCount := ls.filtered.length
  let actualResults := (ls.filtered.drop offset).take cfg.perPage
  if actualResults.isEmpty = true ∧ ¬(number = 1 ∧ cfg.allowEmptyFirstPage = true) then
    (Except.error FPageErr.emptyPage, ls.cache)
  else
    let knownObjCount := (pageStartIndex - offset) + batchResultCount
    let guard : Bool :=
      match ls.cache.knownObjCount with
      | none => true
      | some k => decide (k ≤ knownObjCount)
    let cacheOut :=
      if guard then
        if batchResultCount < cfg.batchSize then
          { ls.cache with lastObj := some knownObjCount, knownObjCount := some knownObjCount }
        else
          match ls.nextCursor with
          | some _ => { ls.cache with knownObjCount := some (knownObjCount + 1) }
          | none => { ls.cache with knownObjCount := some knownObjCount }
      else ls.cache
    (Except.ok actualResults, cacheOut)

/-- `FilterablePaginator.page`, fuelled: validation, cursor/offset
resolution, the replay loop, then `finishPage`.  Returns `none` on fuel
exhaustion, otherwise the raised error or the page's item slice, together
with the cache as left behind. -/
def fpage {α : Type} (cfg : FConfig α) (cache : FCache) (number fuel : Nat) :
    Option (Except FPageErr (List α) × FCache) :=
  if number < 1 then some (Except.error FPageErr.emptyPage, cache)
  else
    match loopOutcome cfg cache number fuel with
    | none => none
    | some ls =>
      some (finishPage cfg number (pageStartIndexOf cfg number) (offsetOf cfg cache number) ls)

/-- The cache left behind by a call, the prior cache when the call does not
complete.  Convenience for chaining concrete runs. -/
def fpageCache {α : Type} (cfg : FConfig α) (cache : FCache) (number fuel : Nat) : FCache :=
  match fpage cfg cache number fuel with
  | some (_, c) => c
  | none => cache

/-- The item slice of a successful call, `none` otherwise. -/
def fpageItems {α : Type} (cfg : FConfig α) (cache : FCache) (number fuel : Nat) :
    Option (List α) :=
  match fpage cfg cache number fuel with
  | some (Except.ok items, _) => some items
  | _ => none

/-- `int(ceil(a / float(b)))` for the non-negative counts the code divides. -/
def ceilDiv (a b : Nat) : Nat := (a + b - 1) / b

/-- `_get_known_page_count`: ceil of the known object count over per_page,
`None` propagated. -/
def getKnownPageCount (knownObj : Option Nat) (perPage : Nat) : Option Nat :=
  match knownObj with
  | none => none
  | some k => some (ceilDiv k perPage)

/-- `_get_final_page`: ceil of the final object count over per_page,
`None` propagated. -/
def getFinalPage (finalObj : Option Nat) (perPage : Nat) : Option Nat :=
  match finalObj with
  | none => none
  | some k => some (ceilDiv k perPage)

/-- `FilteredPage.has_next`: `self.number < known_page_count`.  In Python 2
an int is never `<` None, so an absent count reads as no next page. -/
def hasNext (number : Nat) (knownPageCount : Option Nat) : Bool :=
  match knownPageCount with
  | none => false
  | some k => decide (number < k)

/-- `FilteredPage.available_pages`: pages 1 .. min(number + ceil(batch_size
/ per_page), known_page_count).  In Python 2 `min(x, None)` is None and
`xrange(1, None + 1)` raises TypeError, modelled as an error. -/
def availablePages (number perPage batchSize : Nat) (knownPageCount : Option Nat) :
    Except Unit (List Nat) :=
  let numPagesPerBatch := ceilDiv batchSize perPage
  match knownPageCount with
  | none => Except.error ()
  | some k => Except.ok (List.range' 1 (min (number + numPagesPerBatch) k))

/-- `FilteredPage.final_page_visible`: membership of the final page in
available_pages; `None in [ints]` is False in Python, and the TypeError of
available_pages propagates. -/
def finalPageVisible (number perPage batchSize : Nat) (finalObj knownObj : Option Nat) :
    Except Unit Bool :=
  match availablePages number perPage batchSize (getKnownPageCount knownObj perPage) with
  | Except.error e => Except.error e
  | Except.ok pages =>
    match getFinalPage finalObj perPage with
    | none => Except.ok false
    | some f => Except.ok (decide (f ∈ pages))

/-! ## UnifiedPaginator (paginator.py) -/

/-- Configuration of a UnifiedPaginator and its queryset: the raw item
list, per_page, batch_size (in pages), allow_empty_first_page, and the
cursor the datastore reports after a fetch ending at a given raw position
(`get_cursor(query)`); `none` models a query yielding no cursor. -/
structure UConfig (α : Type) where
  src : List α
  perPage : Nat
  batchSize : Nat
  allowEmptyFirstPage : Bool
  endCursor : Nat → Option Nat

/-- Cached state for one Unified query identity: KNOWN_MAX and the
per-page cursor entries. -/
structure UCache where
  knownMax : Option Nat
  cursors : List (Nat × Nat)
deriving DecidableEq

/-- A cold Unified cache. -/
def emptyUCache : UCache := ⟨none, []⟩

/-- Failures surfaced by `UnifiedPaginator.page`: EmptyPage, and the
`assert cursor` failure inside `_put_cursor`. -/
inductive UErr where
  | emptyPage
  | assertFailed
deriving DecidableEq

/-- `_find_nearest_page_with_cursor`: decrement until the page index is a
multiple of batch_size. -/
def findNearestPageWithCursor (batchSize : Nat) : Nat → Nat
  | 0 => 0
  | p + 1 =>
    if (p + 1) % batchSize = 0 then p + 1 else findNearestPageWithCursor batchSize p

/-- `UnifiedPaginator._get_cursor_and_offset` (the query always supports
cursors in the source): the cached cursor of the nearest
batch-multiple page when positive, and the page-distance offset in items. -/
def uGetCursorAndOffset {α : Type} (cfg : UConfig α) (cache : UCache) (page : Nat) :
    Option Nat × Nat :=
  let pageWithCursor := findNearestPageWithCursor cfg.batchSize page
  (if 0 < pageWithCursor then cacheGet cache.cursors pageWithCursor else none,
   (page - pageWithCursor) * cfg.perPage)

/-- The raw position the Unified fetch starts from: the cursor when one was
found, otherwise `per_page * nearest_page_with_cursor`. -/
def uStartPos {α : Type} (cfg : UConfig α) (cache : UCache) (page : Nat) : Nat :=
  match (uGetCursorAndOffset cfg cache page).1 with
  | some c => c
  | none => cfg.perPage * findNearestPageWithCursor cfg.batchSize page

/-- The raw items the Unified fetch returns: a whole batch,
`per_page * batch_size` items, from the start position. -/
def uResults {α : Type} (cfg : UConfig α) (cache : UCache) (page : Nat) : List α :=
  (cfg.src.drop (uStartPos cfg cache page)).take (cfg.perPage * cfg.batchSize)

/-- The raw position at which the Unified fetch ended. -/
def uEndPos {α : Type} (cfg : UConfig α) (cache : UCache) (page : Nat) : Nat :=
  uStartPos cfg cache page + (uResults cfg cache page).length

/-- `UnifiedPaginator.page`: fetch one batch from the nearest cursor or
positionally, fail on an empty slice (except an allowed empty first page),
then store the cursor for the start of the next batch — `_put_cursor`
asserts the cursor is present — and write the known page count with no
monotonic guard. -/
def upage {α : Type} (cfg : UConfig α) (cache : UCache) (number : Nat) :
    Except UErr (List α) × UCache :=
  if number < 1 then (Except.error UErr.emptyPage, cache)
  else
    let page := number - 1
    let offset := (uGetCursorAndOffset cfg cache page).2
    let results := uResults cfg cache page
    if (results.drop offset).isEmpty = true ∧ ¬(number = 1 ∧ cfg.allowEmptyFirstPage = true) then
      (Except.error UErr.emptyPage, cache)
    else
      let nearestPageWithCursor := findNearestPageWithCursor cfg.batchSize page
      match cfg.endCursor (uEndPos cfg cache page) with
      | none => (Except.error UErr.assertFailed, cache)
      | some tok =>
        let cacheWithCursor :=
          { cache with cursors := cacheSet cache.cursors (nearestPageWithCursor + cfg.batchSize) tok }
        let actualResults := (results.drop offset).take cfg.perPage
        let actualResultCount := actualResults.length
        let knownMax :=
          if actualResultCount < cfg.batchSize * cfg.perPage then
            nearestPageWithCursor + actualResultCount / cfg.perPage + 1
          else
            nearestPageWithCursor + cfg.batchSize + 1
        (Except.ok actualResults, { cacheWithCursor with knownMax := some knownMax })

/-! ## Helper lemmas -/

/-- Splitting a take at an intermediate point. -/
theorem take_add_eq {α : Type} :
    ∀ (m : Nat) (l : List α) (n : Nat), l.take (m + n) = l.take m ++ (l.drop m).take n
  | 0, l, n => by simp
  | m + 1, [], n => by simp
  | m + 1, a :: l, n => by
    rw [Nat.succ_add]
    simp only [List.take_succ_cons, List.drop_succ_cons, List.cons_append]
    rw [take_add_eq m l n]

/-- A fold of Nat.max stays below any common bound. -/
theorem foldl_max_le {bound : Nat} :
    ∀ (l : List Nat) (a : Nat), a ≤ bound → (∀ x ∈ l, x ≤ bound) → l.foldl Nat.max a ≤ bound := by
  intro l
  induction l with
  | nil => intro a ha _; simpa using ha
  | cons x xs ih =>
    intro a ha hall
    simp only [List.foldl_cons]
    exact ih (Nat.max a x) (Nat.max_le.2 ⟨ha, hall x (by simp)⟩)
      (fun y hy => hall y (List.mem_cons_of_mem x hy))

/-- The initial value is below a fold of Nat.max. -/
theorem le_foldl_max_init : ∀ (l : List Nat) (a : Nat), a ≤ l.foldl Nat.max a := by
  intro l
  induction l with
  | nil => intro a; simp
  | cons x xs ih =>
    intro a
    simp only [List.foldl_cons]
    exact Nat.le_trans (Nat.le_max_left a x) (ih (Nat.max a x))

/-- Every member is below a fold of Nat.max. -/
theorem le_foldl_max_mem : ∀ (l : List Nat) (a x : Nat), x ∈ l → x ≤ l.foldl Nat.max a := by
  intro l
  induction l with
  | nil => intro a x hx; cases hx
  | cons y ys ih =>
    intro a x hx
    simp only [List.foldl_cons]
    rcases List.mem_cons.1 hx with h | h
    · subst h; exact Nat.le_trans (Nat.le_max_right a x) (le_foldl_max_init ys (Nat.max a x))
    · exact ih (Nat.max a y) x h

/-- A fold of Nat.max is the initial value or a member. -/
theorem foldl_max_mem_or : ∀ (l : List Nat) (a : Nat), l.foldl Nat.max a = a ∨ l.foldl Nat.max a ∈ l := by
  intro l
  induction l with
  | nil => intro a; left; rfl
  | cons y ys ih =>
    intro a
    simp only [List.foldl_cons]
    rcases ih (Nat.max a y) with h | h
    · have hcases : Nat.max a y = a ∨ Nat.max a y = y := by
        rw [Nat.max_eq_max]
        omega
      rcases hcases with hm | hm
      · left; rw [h, hm]
      · right; rw [h, hm]; exact List.mem_cons_self y ys
    · right; exact List.mem_cons_of_mem y h

/-- Generic elimination principle for the fuelled replay loop: from an
invariant `P` preserved by non-breaking iterations, and a postcondition `Q`
established both at a normal exit and at a break, every completed run
satisfies `Q`. -/
theorem loopGo_elim {α : Type} (cfg : FConfig α) (psi offset : Nat)
    (P Q : LoopState α → Prop)
    (hterm : ∀ ls, P ls → loopCond cfg offset ls = false → Q ls)
    (hbrk : ∀ ls, P ls → loopCond cfg offset ls = true →
      (loopBody cfg psi offset ls).2 = true → Q (loopBody cfg psi offset ls).1)
    (hstep : ∀ ls, P ls → loopCond cfg offset ls = true →
      (loopBody cfg psi offset ls).2 = false → P (loopBody cfg psi offset ls).1) :
    ∀ fuel (ls ls' : LoopState α), P ls → loopGo cfg psi offset fuel ls = some ls' → Q ls' := by
  intro fuel
  induction fuel with
  | zero =>
    intro ls ls' hP h
    simp only [loopGo] at h
    cases hc : loopCond cfg offset ls with
    | true => rw [hc] at h; simp at h
    | false => rw [hc] at h; simp at h; subst h; exact hterm ls hP hc
  | succ fuel ih =>
    intro ls ls' hP h
    simp only [loopGo] at h
    cases hc : loopCond cfg offset ls with
    | false => rw [hc] at h; simp at h; subst h; exact hterm ls hP hc
    | true =>
      rw [hc] at h
      simp only [if_pos] at h
      cases hb : (loopBody cfg psi offset ls).2 with
      | true => rw [hb] at h; simp at h; subst h; exact hbrk ls hP hc hb
      | false =>
        rw [hb] at h; simp at h
        exact ih (loopBody cfg psi offset ls).1 ls' (hstep ls hP hc hb) h

/-- An iteration breaks exactly when its raw fetch is shorter than
batch_size. -/
theorem loopBody_broke_iff {α : Type} (cfg : FConfig α) (psi offset : Nat) (ls : LoopState α) :
    (loopBody cfg psi offset ls).2 = true
      ↔ ((cfg.src.drop (effectiveFetchPos ls)).take cfg.batchSize).length < cfg.batchSize := by
  by_cases hshort : ((cfg.src.drop (effectiveFetchPos ls)).take cfg.batchSize).length < cfg.batchSize
  · simp only [loopBody]
    rw [if_pos hshort]
    simpa using hshort
  · simp only [loopBody]
    rw [if_neg hshort]
    split
    · exact iff_of_false (by simp) hshort
    · exact iff_of_false (by simp) hshort

/-- A breaking iteration records its short raw length in the ghost field. -/
theorem loopBody_broke_last {α : Type} (cfg : FConfig α) (psi offset : Nat) (ls : LoopState α)
    (h : (loopBody cfg psi offset ls).2 = true) :
    ∃ k, (loopBody cfg psi offset ls).1.lastRawCount = some k ∧ k < cfg.batchSize := by
  have hshort := (loopBody_broke_iff cfg psi offset ls).1 h
  refine ⟨((cfg.src.drop (effectiveFetchPos ls)).take cfg.batchSize).length, ?_, hshort⟩
  simp only [loopBody]
  rw [if_pos hshort]

/-- A breaking iteration stops the loop at once, no matter the guard. -/
theorem loopGo_stop {α : Type} (cfg : FConfig α) (psi offset fuel : Nat) (ls : LoopState α)
    (hc : loopCond cfg offset ls = true) (hb : (loopBody cfg psi offset ls).2 = true) :
    loopGo cfg psi offset (fuel + 1) ls = some (loopBody cfg psi offset ls).1 := by
  simp [loopGo, hc, hb]

/-! ## Claim theorems -/

/-- C7: for every target item index and cached checkpoint set, the
nearest-checkpoint lookup of the FilterablePaginator returns 0 when no
cached checkpoint is at or below the target and the maximum such checkpoint
otherwise; and the UnifiedPaginator's page-unit lookup returns the greatest
multiple of batch_size at or below the target page (its implicit checkpoint
grid, with 0 as the bottom element). -/
theorem claim_c7 (l : List Nat) (idx batchSize p : Nat) (hb : 1 ≤ batchSize) :
    ((∀ c ∈ l, ¬ c ≤ idx) → findNearestObjWithCursor l idx = 0)
    ∧ ((∃ c ∈ l, c ≤ idx) →
        findNearestObjWithCursor l idx ∈ l
        ∧ findNearestObjWithCursor l idx ≤ idx
        ∧ ∀ c ∈ l, c ≤ idx → c ≤ findNearestObjWithCursor l idx)
    ∧ (findNearestPageWithCursor batchSize p % batchSize = 0
       ∧ findNearestPageWithCursor batchSize p ≤ p
       ∧ ∀ m, m ≤ p → m % batchSize = 0 → m ≤ findNearestPageWithCursor batchSize p) := by
  refine ⟨?_, ?_, ?_⟩
  · intro hnone
    have hnil : l.filter (fun c => decide (c ≤ idx)) = [] := by
      apply List.filter_eq_nil_iff.2
      intro c hc
      simpa using hnone c hc
    simp [findNearestObjWithCursor, hnil]
  · rintro ⟨c, hcl, hcle⟩
    have hcf : c ∈ l.filter (fun x => decide (x ≤ idx)) :=
      List.mem_filter.2 ⟨hcl, by simpa using hcle⟩
    have hne : l.filter (fun x => decide (x ≤ idx)) ≠ [] := by
      intro hnil; rw [hnil] at hcf; cases hcf
    have hres : findNearestObjWithCursor l idx
        = (l.filter (fun x => decide (x ≤ idx))).foldl Nat.max 0 := by
      simp only [findNearestObjWithCursor]
      cases hl : l.filter (fun x => decide (x ≤ idx)) with
      | nil => exact absurd hl hne
      | cons y ys => simp
    have hmemf : findNearestObjWithCursor l idx ∈ l.filter (fun x => decide (x ≤ idx)) := by
      rcases foldl_max_mem_or (l.filter (fun x => decide (x ≤ idx))) 0 with h0 | hm
      · have hcz : c ≤ 0 := by
          have := le_foldl_max_mem (l.filter (fun x => decide (x ≤ idx))) 0 c hcf
          rw [h0] at this; exact this
        have hc0 : c = 0 := Nat.le_zero.1 hcz
        rw [hres, h0, ← hc0]; exact hcf
      · rw [hres]; exact hm
    have hmem := List.mem_filter.1 hmemf
    refine ⟨hmem.1, by simpa using hmem.2, ?_⟩
    intro d hdl hdle
    have hdf : d ∈ l.filter (fun x => decide (x ≤ idx)) :=
      List.mem_filter.2 ⟨hdl, by simpa using hdle⟩
    rw [hres]
    exact le_foldl_max_mem _ 0 d hdf
  · induction p with
    | zero =>
      refine ⟨by simp [findNearestPageWithCursor], Nat.le_refl 0, ?_⟩
      intro m hm _; exact hm
    | succ q ih =>
      by_cases hq : (q + 1) % batchSize = 0
      · refine ⟨by simp [findNearestPageWithCursor, hq], by simp [findNearestPageWithCursor, hq], ?_⟩
        intro m hm _
        simpa [findNearestPageWithCursor, hq] using hm
      · have hrec : findNearestPageWithCursor batchSize (q + 1)
            = findNearestPageWithCursor batchSize q := by
          simp [findNearestPageWithCursor, hq]
        refine ⟨by rw [hrec]; exact ih.1, by rw [hrec]; exact Nat.le_succ_of_le ih.2.1, ?_⟩
        intro m hm h0
        have hmq : m ≤ q := by
          rcases Nat.eq_or_lt_of_le hm with heq | hlt
          · exact absurd (heq ▸ h0) hq
          · exact Nat.lt_succ_iff.1 hlt
        rw [hrec]
        exact ih.2.2 m hmq h0

/-- Witness for C7 at a concrete checkpoint set and page. -/
theorem claim_c7_witness :
    (1 ≤ 2)
    ∧ (((∀ c ∈ [1, 3], ¬ c ≤ 2) → findNearestObjWithCursor [1, 3] 2 = 0)
      ∧ ((∃ c ∈ [1, 3], c ≤ 2) →
          findNearestObjWithCursor [1, 3] 2 ∈ [1, 3]
          ∧ findNearestObjWithCursor [1, 3] 2 ≤ 2
          ∧ ∀ c ∈ [1, 3], c ≤ 2 → c ≤ findNearestObjWithCursor [1, 3] 2)
      ∧ (findNearestPageWithCursor 2 5 % 2 = 0
         ∧ findNearestPageWithCursor 2 5 ≤ 5
         ∧ ∀ m, m ≤ 5 → m % 2 = 0 → m ≤ findNearestPageWithCursor 2 5)) :=
  ⟨by decide, claim_c7 [1, 3] 2 2 5 (by decide)⟩

/-- C9 (corrected): with no known count cached, has_next degrades to false
and final_page_visible with a cached known count but no final count reports
false; but available_pages (and final_page_visible through it) raise a
TypeError (Python 2 min with None followed by None + 1) instead of
degrading. -/
theorem claim_c9_amended (number perPage batchSize k : Nat) (finalObj : Option Nat) :
    hasNext number (getKnownPageCount none perPage) = false
    ∧ availablePages number perPage batchSize none = Except.error ()
    ∧ finalPageVisible number perPage batchSize finalObj none = Except.error ()
    ∧ finalPageVisible number perPage batchSize none (some k) = Except.ok false :=
  ⟨rfl, rfl, rfl, rfl⟩

/-- C9 counterexample: at a concrete page with no cached counts, the
available_pages and final_page_visible navigation methods raise instead of
reporting pessimistically. -/
theorem claim_c9_counterexample :
    availablePages 1 2 5 none = Except.error ()
    ∧ finalPageVisible 1 2 5 (some 4) none = Except.error () :=
  ⟨rfl, rfl⟩

/-- C10: UnifiedPaginator.page stores a cursor unconditionally after the
fetch, and `_put_cursor` asserts it is present; a call whose query yields
no cursor after the fetch fails on that assertion instead of returning a
page (given it got past validation and the empty-results check). -/
theorem claim_c10 {α : Type} (cfg : UConfig α) (cache : UCache) (number : Nat)
    (h1 : 1 ≤ number)
    (hres : ¬((((uResults cfg cache (number - 1)).drop
        ((uGetCursorAndOffset cfg cache (number - 1)).2)).isEmpty = true)
      ∧ ¬(number = 1 ∧ cfg.allowEmptyFirstPage = true)))
    (hc : cfg.endCursor (uEndPos cfg cache (number - 1)) = none) :
    upage cfg cache number = (Except.error UErr.assertFailed, cache) := by
  have hlt : ¬ number < 1 := by omega
  simp only [upage]
  rw [if_neg hlt, if_neg hres, hc]

/-- A Unified source of three items whose datastore reports no cursor once
the fetch has consumed the whole source. -/
def uConfigAssert : UConfig Nat :=
  ⟨[0, 1, 2], 1, 1, true, fun p => if p < 3 then some p else none⟩

/-- Witness for C10: page 3 of the three-item source reaches the end, the
query yields no cursor, and the call fails on the assertion. -/
theorem claim_c10_witness :
    (1 ≤ 3)
    ∧ ¬((((uResults uConfigAssert emptyUCache 2).drop
        ((uGetCursorAndOffset uConfigAssert emptyUCache 2).2)).isEmpty = true)
      ∧ ¬(3 = 1 ∧ uConfigAssert.allowEmptyFirstPage = true))
    ∧ uConfigAssert.endCursor (uEndPos uConfigAssert emptyUCache 2) = none
    ∧ upage uConfigAssert emptyUCache 3 = (Except.error UErr.assertFailed, emptyUCache) :=
  ⟨by decide, by decide, by decide,
    claim_c10 uConfigAssert emptyUCache 3 (by decide) (by decide) (by decide)⟩

/-- C4: a completed replay loop stops exactly when the accumulator holds at
least batch_size filtered items and at least offset + per_page of them, or
when the most recent raw fetch came back shorter than batch_size; a short
raw fetch breaks out immediately even when the accumulator requirement is
unmet. -/
theorem claim_c4 {α : Type} (cfg : FConfig α) (pageStartIndex offset fuel : Nat)
    (ls ls' : LoopState α) (h : loopGo cfg pageStartIndex offset fuel ls = some ls') :
    ((cfg.batchSize ≤ ls'.filtered.length ∧ offset + cfg.perPage ≤ ls'.filtered.length)
      ∨ ∃ k, ls'.lastRawCount = some k ∧ k < cfg.batchSize)
    ∧ (∀ ls2 : LoopState α,
        (loopBody cfg pageStartIndex offset ls2).2 = true
          ↔ ((cfg.src.drop (effectiveFetchPos ls2)).take cfg.batchSize).length < cfg.batchSize)
    ∧ (∀ (ls2 : LoopState α) (fuel2 : Nat), loopCond cfg offset ls2 = true →
        (loopBody cfg pageStartIndex offset ls2).2 = true →
        loopGo cfg pageStartIndex offset (fuel2 + 1) ls2
          = some (loopBody cfg pageStartIndex offset ls2).1) := by
  refine ⟨?_, fun ls2 => loopBody_broke_iff cfg pageStartIndex offset ls2,
    fun ls2 fuel2 => loopGo_stop cfg pageStartIndex offset fuel2 ls2⟩
  refine loopGo_elim cfg pageStartIndex offset (fun _ => True)
    (fun lsq => (cfg.batchSize ≤ lsq.filtered.length ∧ offset + cfg.perPage ≤ lsq.filtered.length)
      ∨ ∃ k, lsq.lastRawCount = some k ∧ k < cfg.batchSize)
    ?_ ?_ (fun _ _ _ _ => trivial) fuel ls ls' trivial h
  · intro lsq _ hc
    left
    simp only [loopCond, Bool.or_eq_false_iff, decide_eq_false_iff_not, Nat.not_lt] at hc
    exact hc
  · intro lsq _ _ hb
    right
    exact loopBody_broke_last cfg pageStartIndex offset lsq hb

/-- A small non-cursor source with a heavy filter, used as concrete input. -/
def fConfigKeepZero : FConfig Nat := ⟨[0, 1, 2], false, 2, 2, some (fun x => x == 0), true⟩

/-- Witness for C4: a concrete completed loop run ending on a short raw
fetch. -/
theorem claim_c4_witness :
    (loopGo fConfigKeepZero 0 0 20 (initLoopState fConfigKeepZero emptyFCache 1)
      = some ⟨[0], none, none, 2, some 1, emptyFCache⟩)
    ∧ (((2 ≤ ([0] : List Nat).length ∧ 0 + 2 ≤ ([0] : List Nat).length)
        ∨ ∃ k, (some 1 : Option Nat) = some k ∧ k < 2)
      ∧ (∀ ls2 : LoopState Nat,
          (loopBody fConfigKeepZero 0 0 ls2).2 = true
            ↔ ((fConfigKeepZero.src.drop (effectiveFetchPos ls2)).take
                fConfigKeepZero.batchSize).length < fConfigKeepZero.batchSize)
      ∧ (∀ (ls2 : LoopState Nat) (fuel2 : Nat), loopCond fConfigKeepZero 0 ls2 = true →
          (loopBody fConfigKeepZero 0 0 ls2).2 = true →
          loopGo fConfigKeepZero 0 0 (fuel2 + 1) ls2
            = some (loopBody fConfigKeepZero 0 0 ls2).1)) :=
  ⟨by decide,
    claim_c4 fConfigKeepZero 0 0 20 (initLoopState fConfigKeepZero emptyFCache 1)
      ⟨[0], none, none, 2, some 1, emptyFCache⟩ (by decide)⟩

/-- An iteration of the replay loop never touches the cached counts. -/
theorem loopBody_counts {α : Type} (cfg : FConfig α) (psi offset : Nat) (ls : LoopState α) :
    (loopBody cfg psi offset ls).1.cache.knownObjCount = ls.cache.knownObjCount
    ∧ (loopBody cfg psi offset ls).1.cache.lastObj = ls.cache.lastObj := by
  simp only [loopBody]
  split
  · exact ⟨rfl, rfl⟩
  · split
    · exact ⟨rfl, rfl⟩
    · exact ⟨rfl, rfl⟩

/-- A completed replay loop leaves the cached counts untouched. -/
theorem loopGo_counts {α : Type} (cfg : FConfig α) (psi offset fuel : Nat)
    (ls ls' : LoopState α) (h : loopGo cfg psi offset fuel ls = some ls') :
    ls'.cache.knownObjCount = ls.cache.knownObjCount
    ∧ ls'.cache.lastObj = ls.cache.lastObj := by
  refine loopGo_elim cfg psi offset
    (fun q => q.cache.knownObjCount = ls.cache.knownObjCount
      ∧ q.cache.lastObj = ls.cache.lastObj)
    (fun q => q.cache.knownObjCount = ls.cache.knownObjCount
      ∧ q.cache.lastObj = ls.cache.lastObj)
    (fun q hq _ => hq) (fun q hq _ _ => ?_) (fun q hq _ _ => ?_) fuel ls ls' ⟨rfl, rfl⟩ h
  · have hb := loopBody_counts cfg psi offset q
    exact ⟨hb.1.trans hq.1, hb.2.trans hq.2⟩
  · have hb := loopBody_counts cfg psi offset q
    exact ⟨hb.1.trans hq.1, hb.2.trans hq.2⟩

/-- The bookkeeping tail either leaves the known count unchanged or writes
a value at least as large as any previously cached one. -/
theorem finishPage_known {α : Type} (cfg : FConfig α) (number psi offset : Nat)
    (ls : LoopState α) :
    (finishPage cfg number psi offset ls).2.knownObjCount = ls.cache.knownObjCount
    ∨ ∃ j, (finishPage cfg number psi offset ls).2.knownObjCount = some j
        ∧ ∀ k, ls.cache.knownObjCount = some k → k ≤ j := by
  simp only [finishPage]
  split
  · left; rfl
  · cases hko : ls.cache.knownObjCount with
    | none =>
      right
      simp only [hko, if_true]
      split
      · exact ⟨psi - offset + ls.filtered.length, rfl, fun k2 hk2 => by simp at hk2⟩
      · split
        · exact ⟨psi - offset + ls.filtered.length + 1, rfl, fun k2 hk2 => by simp at hk2⟩
        · exact ⟨psi - offset + ls.filtered.length, rfl, fun k2 hk2 => by simp at hk2⟩
    | some k =>
      simp only [hko]
      split
      · rename_i hguard
        have hk : k ≤ psi - offset + ls.filtered.length := by simpa using hguard
        right
        split
        · exact ⟨psi - offset + ls.filtered.length, rfl,
            fun k2 hk2 => by injection hk2 with h2; subst h2; exact hk⟩
        · split
          · exact ⟨psi - offset + ls.filtered.length + 1, rfl,
              fun k2 hk2 => by injection hk2 with h2; subst h2; exact Nat.le_succ_of_le hk⟩
          · exact ⟨psi - offset + ls.filtered.length, rfl,
              fun k2 hk2 => by injection hk2 with h2; subst h2; exact hk⟩
      · left; exact hko

/-- C2 (corrected, FilterablePaginator half): the known object count
written by a completed `page` call never falls below a previously cached
value; the guard `known_obj_count >= cached` keeps every write monotone. -/
theorem claim_c2_amended {α : Type} (cfg : FConfig α) (cache : FCache) (number fuel : Nat)
    (r : Except FPageErr (List α)) (cacheOut : FCache)
    (h : fpage cfg cache number fuel = some (r, cacheOut)) :
    ∀ k, cache.knownObjCount = some k → ∃ j, cacheOut.knownObjCount = some j ∧ k ≤ j := by
  intro k hk
  simp only [fpage] at h
  by_cases h1 : number < 1
  · rw [if_pos h1] at h
    have h2 := Option.some.inj h
    have hc : cache = cacheOut := congrArg Prod.snd h2
    exact ⟨k, by rw [← hc, hk], Nat.le_refl k⟩
  · rw [if_neg h1] at h
    cases hlo : loopOutcome cfg cache number fuel with
    | none => rw [hlo] at h; exact absurd h (by simp)
    | some ls =>
      rw [hlo] at h
      have h2 := Option.some.inj h
      have hc : (finishPage cfg number (pageStartIndexOf cfg number)
          (offsetOf cfg cache number) ls).2 = cacheOut := congrArg Prod.snd h2
      have hls : ls.cache.knownObjCount = some k := by
        have := (loopGo_counts cfg (pageStartIndexOf cfg number)
          (offsetOf cfg cache number) fuel (initLoopState cfg cache number) ls hlo).1
        rw [this]; exact hk
      rcases finishPage_known cfg number (pageStartIndexOf cfg number)
          (offsetOf cfg cache number) ls with heq | ⟨j, hj, hmon⟩
      · exact ⟨k, by rw [← hc, heq, hls], Nat.le_refl k⟩
      · exact ⟨j, by rw [← hc, hj], hmon k hls⟩

/-- A Unified query over ten items with page-sized batches, whose
datastore always yields a cursor. -/
def uConfigReset : UConfig Nat := ⟨List.range 10, 1, 1, true, fun p => some p⟩

/-- C2 counterexample: UnifiedPaginator writes the known page count with
no monotonic guard, so page(5) caches 6 and a following page(1) overwrites
it with 2 — the cached known count decreases. -/
theorem claim_c2_counterexample :
    ((upage uConfigReset emptyUCache 5).2.knownMax = some 6)
    ∧ ((upage uConfigReset (upage uConfigReset emptyUCache 5).2 1).2.knownMax = some 2)
    ∧ ((2 : Nat) < 6) :=
  ⟨rfl, rfl, by decide⟩

/-- A paginator over an empty source. -/
def fConfigEmptySrc : FConfig Nat := ⟨[], false, 1, 1, none, true⟩

/-- A cache already holding a known object count of 0. -/
def fCacheKnown0 : FCache := ⟨none, some 0, [], []⟩

/-- Witness for C2 at a concrete call: the cached known count 0 is not
decreased by page(1) on an empty source. -/
theorem claim_c2_amended_witness :
    (fpage fConfigEmptySrc fCacheKnown0 1 2
        = some (Except.ok [], (⟨some 0, some 0, [], []⟩ : FCache)))
    ∧ (∀ k, fCacheKnown0.knownObjCount = some k →
        ∃ j, (⟨some 0, some 0, [], []⟩ : FCache).knownObjCount = some j ∧ k ≤ j) :=
  ⟨by decide,
    claim_c2_amended fConfigEmptySrc fCacheKnown0 1 2 (Except.ok [])
      ⟨some 0, some 0, [], []⟩ (by decide)⟩

/-- C8: a completed call returns exactly `accumulator[offset : offset +
per_page]`; when that slice is empty the call raises EmptyPage, unless the
requested 1-based number is 1 and empty first pages are allowed, in which
case the empty slice is returned without error. -/
theorem claim_c8 {α : Type} (cfg : FConfig α) (cache : FCache) (number fuel : Nat)
    (ls : LoopState α) (h1 : 1 ≤ number)
    (hl : loopOutcome cfg cache number fuel = some ls) :
    ((((ls.filtered.drop (offsetOf cfg cache number)).take cfg.perPage).isEmpty = true
        ∧ ¬(number = 1 ∧ cfg.allowEmptyFirstPage = true)) →
      fpage cfg cache number fuel = some (Except.error FPageErr.emptyPage, ls.cache))
    ∧ (¬(((ls.filtered.drop (offsetOf cfg cache number)).take cfg.perPage).isEmpty = true
        ∧ ¬(number = 1 ∧ cfg.allowEmptyFirstPage = true)) →
      ∃ cacheOut, fpage cfg cache number fuel
        = some (Except.ok ((ls.filtered.drop (offsetOf cfg cache number)).take cfg.perPage),
            cacheOut)) := by
  have hlt : ¬ number < 1 := by omega
  constructor
  · intro hcond
    simp only [fpage]
    rw [if_neg hlt, hl]
    dsimp only
    simp only [finishPage]
    rw [if_pos hcond]
  · intro hcond
    refine ⟨(finishPage cfg number (pageStartIndexOf cfg number)
      (offsetOf cfg cache number) ls).2, ?_⟩
    simp only [fpage]
    rw [if_neg hlt, hl]
    dsimp only
    simp only [finishPage]
    rw [if_neg hcond]

/-- The fields of a breaking iteration: the batch is appended, the cache is
untouched, and next_cursor is cleared. -/
theorem loopBody_break_fields {α : Type} (cfg : FConfig α) (psi offset : Nat)
    (ls : LoopState α) (hb : (loopBody cfg psi offset ls).2 = true) :
    (loopBody cfg psi offset ls).1.filtered
      = ls.filtered ++ ((cfg.src.drop (effectiveFetchPos ls)).take cfg.batchSize).filter (keepFn cfg)
    ∧ (loopBody cfg psi offset ls).1.cache = ls.cache
    ∧ (loopBody cfg psi offset ls).1.nextCursor = none := by
  have hshort := (loopBody_broke_iff cfg psi offset ls).1 hb
  simp only [loopBody]
  rw [if_pos hshort]
  exact ⟨rfl, rfl, rfl⟩

/-- The fields of a non-breaking iteration without cursor support: the
batch is appended, start_bottom advances by batch_size, the cache is
untouched. -/
theorem loopBody_noCursor_step {α : Type} (cfg : FConfig α) (psi offset : Nat)
    (ls : LoopState α) (hnc : cfg.supportsCursors = false)
    (hb : (loopBody cfg psi offset ls).2 = false) :
    (loopBody cfg psi offset ls).1
      = ⟨ls.filtered ++ ((cfg.src.drop (effectiveFetchPos ls)).take cfg.batchSize).filter (keepFn cfg),
          promoteCursor ls, none, ls.startBottom + cfg.batchSize,
          some ((cfg.src.drop (effectiveFetchPos ls)).take cfg.batchSize).length, ls.cache⟩ := by
  have hshort : ¬ ((cfg.src.drop (effectiveFetchPos ls)).take cfg.batchSize).length < cfg.batchSize := by
    intro hs
    rw [(loopBody_broke_iff cfg psi offset ls).2 hs] at hb
    exact Bool.noConfusion hb
  simp only [loopBody]
  rw [if_neg hshort, if_neg (by simp [hnc])]

/-- Without cursor support, a completed replay loop that started
positionally at 0 has accumulated exactly the filtered prefix it visited;
when the guard is still demanding more, it has filtered the whole source.
The cache is untouched throughout. -/
theorem loopGo_noCursor {α : Type} (cfg : FConfig α) (psi offset fuel : Nat)
    (hnc : cfg.supportsCursors = false) (ls ls' : LoopState α)
    (hsc : ls.startCursor = none) (hncur : ls.nextCursor = none)
    (hfil : ls.filtered = (cfg.src.take ls.startBottom).filter (keepFn cfg))
    (h : loopGo cfg psi offset fuel ls = some ls') :
    ls'.cache = ls.cache
    ∧ (loopCond cfg offset ls' = false ∨ ls'.filtered = cfg.src.filter (keepFn cfg)) := by
  have heff : ∀ q : LoopState α, q.startCursor = none → q.nextCursor = none →
      effectiveFetchPos q = q.startBottom := by
    intro q h1 h2
    simp [effectiveFetchPos, promoteCursor, h1, h2]
  have hfilter : ∀ q : LoopState α, q.startCursor = none → q.nextCursor = none →
      q.filtered = (cfg.src.take q.startBottom).filter (keepFn cfg) →
      q.filtered ++ ((cfg.src.drop (effectiveFetchPos q)).take cfg.batchSize).filter (keepFn cfg)
        = (cfg.src.take (q.startBottom + cfg.batchSize)).filter (keepFn cfg) := by
    intro q h1 h2 h3
    rw [heff q h1 h2, h3, take_add_eq q.startBottom cfg.src cfg.batchSize,
      List.filter_append]
  refine loopGo_elim cfg psi offset
    (fun q => q.startCursor = none ∧ q.nextCursor = none ∧ q.cache = ls.cache
      ∧ q.filtered = (cfg.src.take q.startBottom).filter (keepFn cfg))
    (fun q => q.cache = ls.cache
      ∧ (loopCond cfg offset q = false ∨ q.filtered = cfg.src.filter (keepFn cfg)))
    ?_ ?_ ?_ fuel ls ls' ⟨hsc, hncur, rfl, hfil⟩ h
  · exact fun q hq hcf => ⟨hq.2.2.1, Or.inl hcf⟩
  · intro q hq hcond hb
    obtain ⟨hf, hcache, _⟩ := loopBody_break_fields cfg psi offset q hb
    refine ⟨hcache.trans hq.2.2.1, Or.inr ?_⟩
    have hshort := (loopBody_broke_iff cfg psi offset q).1 hb
    have hlen : cfg.src.length ≤ q.startBottom + cfg.batchSize := by
      rw [heff q hq.1 hq.2.1] at hshort
      rw [List.length_take, List.length_drop] at hshort
      omega
    rw [hf, hfilter q hq.1 hq.2.1 hq.2.2.2, List.take_of_length_le hlen]
  · intro q hq hcond hb
    rw [loopBody_noCursor_step cfg psi offset q hnc hb]
    refine ⟨by simp [promoteCursor, hq.1, hq.2.1], rfl, hq.2.2.1, ?_⟩
    exact hfilter q hq.1 hq.2.1 hq.2.2.2

/-- The bookkeeping tail either leaves the final object count unchanged or
writes the replay start plus the accumulator length, and then only when
the accumulator is shorter than batch_size. -/
theorem finishPage_last {α : Type} (cfg : FConfig α) (number psi offset : Nat)
    (ls : LoopState α) :
    (finishPage cfg number psi offset ls).2.lastObj = ls.cache.lastObj
    ∨ ((finishPage cfg number psi offset ls).2.lastObj
          = some ((psi - offset) + ls.filtered.length)
        ∧ ls.filtered.length < cfg.batchSize) := by
  simp only [finishPage]
  split
  · left; rfl
  · split
    · split
      · rename_i hbrc; exact Or.inr ⟨rfl, hbrc⟩
      · split
        · left; rfl
        · left; rfl
    · left; rfl

/-- The bookkeeping tail never touches the checkpoint set or the stored
cursors. -/
theorem finishPage_cursorState {α : Type} (cfg : FConfig α) (number psi offset : Nat)
    (ls : LoopState α) :
    (finishPage cfg number psi offset ls).2.cursoredObjects = ls.cache.cursoredObjects
    ∧ (finishPage cfg number psi offset ls).2.cursors = ls.cache.cursors := by
  simp only [finishPage]
  split
  · exact ⟨rfl, rfl⟩
  · split
    · split
      · exact ⟨rfl, rfl⟩
      · split
        · exact ⟨rfl, rfl⟩
        · exact ⟨rfl, rfl⟩
    · exact ⟨rfl, rfl⟩

/-- With no registered checkpoint, the resolved start cursor is absent and
the offset is the full page start index. -/
theorem getCursorAndOffset_noCheckpoints {α : Type} (cfg : FConfig α) (cache : FCache)
    (startIndex : Nat) (hcur : cache.cursoredObjects = []) :
    getCursorAndOffset cfg cache startIndex = (none, startIndex) := by
  simp [getCursorAndOffset, hcur, findNearestObjWithCursor]

/-- C3 (corrected, non-cursor half): without cursor support — where the
cache never registers checkpoints — every final object count a completed
call writes equals the filtered length of the whole source, so once the
final count is set no later call changes it. -/
theorem claim_c3_amended {α : Type} (cfg : FConfig α) (cache : FCache) (number fuel : Nat)
    (r : Except FPageErr (List α)) (cacheOut : FCache)
    (hnc : cfg.supportsCursors = false) (hcur : cache.cursoredObjects = [])
    (h : fpage cfg cache number fuel = some (r, cacheOut)) :
    (cacheOut.lastObj = cache.lastObj
      ∨ cacheOut.lastObj = some ((cfg.src.filter (keepFn cfg)).length))
    ∧ (cache.lastObj = some ((cfg.src.filter (keepFn cfg)).length) →
        cacheOut.lastObj = cache.lastObj) := by
  have hmain : cacheOut.lastObj = cache.lastObj
      ∨ cacheOut.lastObj = some ((cfg.src.filter (keepFn cfg)).length) := by
    simp only [fpage] at h
    by_cases h1 : number < 1
    · rw [if_pos h1] at h
      have h2 := Option.some.inj h
      have hc : cache = cacheOut := congrArg Prod.snd h2
      left; rw [← hc]
    · rw [if_neg h1] at h
      cases hlo : loopOutcome cfg cache number fuel with
      | none => rw [hlo] at h; exact absurd h (by simp)
      | some ls =>
        rw [hlo] at h
        have h2 := Option.some.inj h
        have hc : (finishPage cfg number (pageStartIndexOf cfg number)
            (offsetOf cfg cache number) ls).2 = cacheOut := congrArg Prod.snd h2
        have hgco := getCursorAndOffset_noCheckpoints cfg cache (pageStartIndexOf cfg number) hcur
        have hoff : offsetOf cfg cache number = pageStartIndexOf cfg number := by
          simp [offsetOf, hgco]
        have hscn : startCursorOf cfg cache number = none := by
          simp [startCursorOf, hgco]
        have hsb : (initLoopState cfg cache number).startBottom = 0 := by
          simp [initLoopState, hoff]
        have hloop := loopGo_noCursor cfg (pageStartIndexOf cfg number)
          (offsetOf cfg cache number) fuel hnc (initLoopState cfg cache number) ls
          (by simp [initLoopState, hscn]) (by simp [initLoopState])
          (by rw [hsb]; simp [initLoopState]) hlo
        rcases finishPage_last cfg number (pageStartIndexOf cfg number)
            (offsetOf cfg cache number) ls with hlast | ⟨hlast, hbrc⟩
        · left
          rw [← hc, hlast, hloop.1]
          simp [initLoopState]
        · right
          have hcond : loopCond cfg (offsetOf cfg cache number) ls = true := by
            simp only [loopCond]
            rw [Bool.or_eq_true]
            left
            simpa using hbrc
          rcases hloop.2 with hfalse | hfull
          · rw [hcond] at hfalse; exact Bool.noConfusion hfalse
          · rw [← hc, hlast, hoff, hfull]
            simp
  refine ⟨hmain, fun hset => ?_⟩
  rcases hmain with heq | heq
  · exact heq
  · rw [heq, hset]

/-- The cache-independent fields of a loop state. -/
def stripLS {α : Type} (ls : LoopState α) :
    List α × Option Nat × Option Nat × Nat × Option Nat :=
  (ls.filtered, ls.startCursor, ls.nextCursor, ls.startBottom, ls.lastRawCount)

/-- An iteration's behaviour does not read the cache: states agreeing on
the cache-independent fields step to states agreeing on them, with the
same break flag. -/
theorem loopBody_strip {α : Type} (cfg : FConfig α) (psi offset : Nat)
    (a b : LoopState α) (hs : stripLS a = stripLS b) :
    stripLS (loopBody cfg psi offset a).1 = stripLS (loopBody cfg psi offset b).1
    ∧ (loopBody cfg psi offset a).2 = (loopBody cfg psi offset b).2 := by
  obtain ⟨fa, sca, nca, sba, lra, ca⟩ := a
  obtain ⟨fb, scb, ncb, sbb, lrb, cb⟩ := b
  simp only [stripLS, Prod.mk.injEq] at hs
  obtain ⟨h1, h2, h3, h4, h5⟩ := hs
  subst h1; subst h2; subst h3; subst h4; subst h5
  have hprom : promoteCursor (⟨fa, sca, nca, sba, lra, ca⟩ : LoopState α)
      = promoteCursor (⟨fa, sca, nca, sba, lra, cb⟩ : LoopState α) := rfl
  have heff : effectiveFetchPos (⟨fa, sca, nca, sba, lra, ca⟩ : LoopState α)
      = effectiveFetchPos (⟨fa, sca, nca, sba, lra, cb⟩ : LoopState α) := rfl
  simp only [loopBody, stripLS]
  rw [heff, hprom]
  split
  · exact ⟨rfl, rfl⟩
  · split
    · exact ⟨rfl, rfl⟩
    · exact ⟨rfl, rfl⟩

/-- The replay loop's outcome, up to the cache component, is independent of
the starting cache. -/
theorem loopGo_strip {α : Type} (cfg : FConfig α) (psi offset : Nat) :
    ∀ (fuel : Nat) (a b : LoopState α), stripLS a = stripLS b →
      (loopGo cfg psi offset fuel a).map stripLS
        = (loopGo cfg psi offset fuel b).map stripLS := by
  intro fuel
  induction fuel with
  | zero =>
    intro a b hs
    have hf : a.filtered = b.filtered := congrArg Prod.fst hs
    have hc : loopCond cfg offset a = loopCond cfg offset b := by
      simp only [loopCond, hf]
    simp only [loopGo]
    rw [hc]
    cases hcb : loopCond cfg offset b with
    | true => simp
    | false => simp [hs]
  | succ fuel ih =>
    intro a b hs
    have hf : a.filtered = b.filtered := congrArg Prod.fst hs
    have hc : loopCond cfg offset a = loopCond cfg offset b := by
      simp only [loopCond, hf]
    have hbody := loopBody_strip cfg psi offset a b hs
    simp only [loopGo]
    rw [hc]
    cases hcb : loopCond cfg offset b with
    | false => simp [hs]
    | true =>
      simp only [if_true]
      rw [hbody.2]
      cases hbb : (loopBody cfg psi offset b).2 with
      | true => simp [hbody.1]
      | false =>
        simp only [Bool.false_eq_true, if_neg, ite_false]
        exact ih (loopBody cfg psi offset a).1 (loopBody cfg psi offset b).1 hbody.1

/-- The returned half of the bookkeeping tail depends only on the
accumulator. -/
theorem finishPage_fst {α : Type} (cfg : FConfig α) (number psi offset : Nat)
    (a b : LoopState α) (hf : a.filtered = b.filtered) :
    (finishPage cfg number psi offset a).1 = (finishPage cfg number psi offset b).1 := by
  simp only [finishPage, hf]
  split <;> rfl

/-- C6 (corrected): with no registered checkpoint in the cache — in
particular for any source without cursor support, whose cache never
registers checkpoints — a `page` call returns the same outcome as with a
cold cache; and without cursor support a completed call leaves the
checkpoint set empty. -/
theorem claim_c6_amended {α : Type} (cfg : FConfig α) (cache : FCache) (number fuel : Nat)
    (hcur : cache.cursoredObjects = []) :
    ((fpage cfg cache number fuel).map (fun rc => rc.1)
        = (fpage cfg emptyFCache number fuel).map (fun rc => rc.1))
    ∧ (cfg.supportsCursors = false →
        ∀ (r : Except FPageErr (List α)) (cacheOut : FCache),
          fpage cfg cache number fuel = some (r, cacheOut) →
          cacheOut.cursoredObjects = []) := by
  have hgco := getCursorAndOffset_noCheckpoints cfg cache (pageStartIndexOf cfg number) hcur
  have hgcoE := getCursorAndOffset_noCheckpoints cfg emptyFCache (pageStartIndexOf cfg number) rfl
  have hoff : offsetOf cfg cache number = offsetOf cfg emptyFCache number := by
    simp [offsetOf, hgco, hgcoE]
  have hstrip : stripLS (initLoopState cfg cache number)
      = stripLS (initLoopState cfg emptyFCache number) := by
    simp [initLoopState, stripLS, startCursorOf, hgco, hgcoE, hoff]
  constructor
  · by_cases h1 : number < 1
    · simp [fpage, h1]
    · have hmap := loopGo_strip cfg (pageStartIndexOf cfg number)
        (offsetOf cfg cache number) fuel (initLoopState cfg cache number)
        (initLoopState cfg emptyFCache number) hstrip
      have hlo : (loopOutcome cfg cache number fuel).map stripLS
          = (loopOutcome cfg emptyFCache number fuel).map stripLS := by
        simp only [loopOutcome]
        rw [hoff] at hmap ⊢
        exact hmap
      simp only [fpage, if_neg h1]
      cases hA : loopOutcome cfg cache number fuel with
      | none =>
        rw [hA] at hlo
        cases hB : loopOutcome cfg emptyFCache number fuel with
        | none => simp
        | some lsB => rw [hB] at hlo; exact absurd hlo (by simp)
      | some lsA =>
        rw [hA] at hlo
        cases hB : loopOutcome cfg emptyFCache number fuel with
        | none => rw [hB] at hlo; exact absurd hlo (by simp)
        | some lsB =>
          rw [hB] at hlo
          have hsAB : stripLS lsA = stripLS lsB := by simpa using hlo
          have hfAB : lsA.filtered = lsB.filtered := congrArg Prod.fst hsAB
          show some ((finishPage cfg number (pageStartIndexOf cfg number)
              (offsetOf cfg cache number) lsA).1)
            = some ((finishPage cfg number (pageStartIndexOf cfg number)
              (offsetOf cfg emptyFCache number) lsB).1)
          rw [hoff]
          exact congrArg (fun x => some x)
            (finishPage_fst cfg number (pageStartIndexOf cfg number)
              (offsetOf cfg emptyFCache number) lsA lsB hfAB)
  · intro hnc r cacheOut h
    simp only [fpage] at h
    by_cases h1 : number < 1
    · rw [if_pos h1] at h
      have h2 := Option.some.inj h
      have hcq : cache = cacheOut := congrArg Prod.snd h2
      rw [← hcq]; exact hcur
    · rw [if_neg h1] at h
      cases hlo2 : loopOutcome cfg cache number fuel with
      | none => rw [hlo2] at h; exact absurd h (by simp)
      | some ls =>
        rw [hlo2] at h
        have h2 := Option.some.inj h
        have hcq : (finishPage cfg number (pageStartIndexOf cfg number)
            (offsetOf cfg cache number) ls).2 = cacheOut := congrArg Prod.snd h2
        have hoffp : offsetOf cfg cache number = pageStartIndexOf cfg number := by
          simp [offsetOf, hgco]
        have hloop := loopGo_noCursor cfg (pageStartIndexOf cfg number)
          (offsetOf cfg cache number) fuel hnc (initLoopState cfg cache number) ls
          (by simp [initLoopState, startCursorOf, hgco]) (by simp [initLoopState])
          (by simp [initLoopState, hoffp]) hlo2
        have hcs := (finishPage_cursorState cfg number (pageStartIndexOf cfg number)
          (offsetOf cfg cache number) ls).1
        rw [← hcq, hcs, hloop.1]
        simpa [initLoopState] using hcur

/-- C5 (corrected): any write of the final object count by a completed
call requires the FILTERED accumulator, not the raw fetch, to be shorter
than batch_size; the written value is the replay start plus the
accumulator length. -/
theorem claim_c5_amended {α : Type} (cfg : FConfig α) (cache : FCache) (number fuel : Nat)
    (r : Except FPageErr (List α)) (cacheOut : FCache)
    (h : fpage cfg cache number fuel = some (r, cacheOut)) :
    cacheOut.lastObj = cache.lastObj
    ∨ ∃ ls, loopOutcome cfg cache number fuel = some ls
        ∧ ls.filtered.length < cfg.batchSize
        ∧ cacheOut.lastObj
            = some ((pageStartIndexOf cfg number - offsetOf cfg cache number)
                + ls.filtered.length) := by
  simp only [fpage] at h
  by_cases h1 : number < 1
  · rw [if_pos h1] at h
    have h2 := Option.some.inj h
    have hc : cache = cacheOut := congrArg Prod.snd h2
    left; rw [← hc]
  · rw [if_neg h1] at h
    cases hlo : loopOutcome cfg cache number fuel with
    | none => rw [hlo] at h; exact absurd h (by simp)
    | some ls =>
      rw [hlo] at h
      have h2 := Option.some.inj h
      have hc : (finishPage cfg number (pageStartIndexOf cfg number)
          (offsetOf cfg cache number) ls).2 = cacheOut := congrArg Prod.snd h2
      have hcounts := (loopGo_counts cfg (pageStartIndexOf cfg number)
        (offsetOf cfg cache number) fuel (initLoopState cfg cache number) ls hlo).2
      rcases finishPage_last cfg number (pageStartIndexOf cfg number)
          (offsetOf cfg cache number) ls with hlast | ⟨hlast, hbrc⟩
      · left
        rw [← hc, hlast, hcounts]
        rfl
      · right
        exact ⟨ls, rfl, hbrc, by rw [← hc, hlast]⟩

/-- The same three-item source with a filter keeping 0 and 2. -/
def fConfigKeepZeroTwo : FConfig Nat :=
  ⟨[0, 1, 2], false, 2, 2, some (fun x => x == 0 || x == 2), true⟩

/-- C5 counterexample: two page(1) calls on the same three-item source,
differing only in the filter.  Both runs end on a short raw fetch (raw
length 1 < batch_size 2), yet with the filter keeping two items no final
count is persisted, while with the filter keeping one item it is:
persistence depends on how many items the filter discarded, not solely on
the raw fetch length. -/
theorem claim_c5_counterexample :
    ((loopOutcome fConfigKeepZeroTwo emptyFCache 1 20).map (fun ls => ls.lastRawCount)
        = some (some 1))
    ∧ ((1 : Nat) < 2)
    ∧ (fpageCache fConfigKeepZeroTwo emptyFCache 1 20).lastObj = none
    ∧ (fpageCache fConfigKeepZero emptyFCache 1 20).lastObj = some 1 :=
  ⟨by decide, by decide, by decide, by decide⟩

/-- Witness for C5 (amended) at the concrete keep-only-zero run: the final
count written is the accumulator length 1, with 1 < batch_size 2. -/
theorem claim_c5_amended_witness :
    (fpage fConfigKeepZero emptyFCache 1 20
        = some (Except.ok [0], (⟨some 1, some 1, [], []⟩ : FCache)))
    ∧ ((⟨some 1, some 1, [], []⟩ : FCache).lastObj = emptyFCache.lastObj
      ∨ ∃ ls, loopOutcome fConfigKeepZero emptyFCache 1 20 = some ls
          ∧ ls.filtered.length < fConfigKeepZero.batchSize
          ∧ (⟨some 1, some 1, [], []⟩ : FCache).lastObj
              = some ((pageStartIndexOf fConfigKeepZero 1
                  - offsetOf fConfigKeepZero emptyFCache 1) + ls.filtered.length)) :=
  ⟨by decide,
    claim_c5_amended fConfigKeepZero emptyFCache 1 20 (Except.ok [0])
      ⟨some 1, some 1, [], []⟩ (by decide)⟩

/-- A cursor-supporting source of four numbers with an even-keeping
filter and batches of two. -/
def fConfigEvenPairs : FConfig Nat :=
  ⟨[0, 1, 2, 3], true, 1, 2, some (fun x => x % 2 == 0), true⟩

/-- C1 counterexample: on page(1) with a cold cache, the first batch
fetches raw items 0 and 1, so the raw index immediately after the batch is
2 and the captured cursor resumes at raw position 2; but the checkpoint
registered and persisted for it is the filtered index 1 — the persisted
map holds checkpoint 1 with cursor position 2 and no cursor under
checkpoint 2. -/
theorem claim_c1_counterexample :
    (fpage fConfigEvenPairs emptyFCache 1 20
        = some (Except.ok [0], (⟨none, some 2, [1, 2], [(1, 2)]⟩ : FCache)))
    ∧ cacheGet [(1, 2)] 1 = some 2
    ∧ cacheGet [(1, 2)] 2 = none
    ∧ ((1 : Nat) ≠ 2) :=
  ⟨by decide, by decide, by decide, by decide⟩

/-- A cursor-supporting source of six numbers with an odd-keeping filter. -/
def fConfigOddSix : FConfig Nat :=
  ⟨[0, 1, 2, 3, 4, 5], true, 1, 2, some (fun x => x % 2 == 1), true⟩

/-- C3 counterexample: the call sequence page(5), page(4), page(5),
page(6) on the odd-filtered six-item source first persists final object
count 5 and then overwrites it with 6 — the final count, once set, is
changed by a later call. -/
theorem claim_c3_counterexample :
    (fpageCache fConfigOddSix (fpageCache fConfigOddSix (fpageCache fConfigOddSix
        emptyFCache 5 30) 4 30) 5 30).lastObj = some 5
    ∧ (fpageCache fConfigOddSix (fpageCache fConfigOddSix (fpageCache fConfigOddSix
        (fpageCache fConfigOddSix emptyFCache 5 30) 4 30) 5 30) 6 30).lastObj = some 6
    ∧ (some (5 : Nat) ≠ some 6) :=
  ⟨by decide, by decide, by decide⟩

/-- Witness for C3 (amended) at the concrete keep-only-zero run: the final
count written equals the filtered length of the whole source. -/
theorem claim_c3_amended_witness :
    (fConfigKeepZero.supportsCursors = false)
    ∧ (emptyFCache.cursoredObjects = [])
    ∧ (fpage fConfigKeepZero emptyFCache 1 20
        = some (Except.ok [0], (⟨some 1, some 1, [], []⟩ : FCache)))
    ∧ (((⟨some 1, some 1, [], []⟩ : FCache).lastObj = emptyFCache.lastObj
        ∨ (⟨some 1, some 1, [], []⟩ : FCache).lastObj
            = some ((fConfigKeepZero.src.filter (keepFn fConfigKeepZero)).length))
      ∧ (emptyFCache.lastObj
            = some ((fConfigKeepZero.src.filter (keepFn fConfigKeepZero)).length) →
          (⟨some 1, some 1, [], []⟩ : FCache).lastObj = emptyFCache.lastObj)) :=
  ⟨rfl, rfl, by decide,
    claim_c3_amended fConfigKeepZero emptyFCache 1 20 (Except.ok [0])
      ⟨some 1, some 1, [], []⟩ rfl rfl (by decide)⟩

/-- A cursor-supporting source of three numbers with an even-keeping
filter and batches of three. -/
def fConfigEvenTriple : FConfig Nat :=
  ⟨[0, 1, 2], true, 1, 3, some (fun x => x % 2 == 0), true⟩

/-- C6 counterexample: after a single page(1) call has warmed the cache,
page(3) returns item 2, while the same page(3) on a cold cache returns
item 0 — both calls succeed but return different slices. -/
theorem claim_c6_counterexample :
    fpageItems fConfigEvenTriple (fpageCache fConfigEvenTriple emptyFCache 1 20) 3 20
        = some [2]
    ∧ fpageItems fConfigEvenTriple emptyFCache 3 20 = some [0]
    ∧ (([2] : List Nat) ≠ [0]) :=
  ⟨by decide, by decide, by decide⟩

/-- A cache holding only counts, as a warm non-cursor cache does. -/
def fCacheCounts : FCache := ⟨some 5, some 5, [], []⟩

/-- Witness for C6 (amended) at a concrete checkpoint-free warm cache. -/
theorem claim_c6_amended_witness :
    (fCacheCounts.cursoredObjects = [])
    ∧ (((fpage fConfigKeepZero fCacheCounts 1 20).map (fun rc => rc.1)
        = (fpage fConfigKeepZero emptyFCache 1 20).map (fun rc => rc.1))
      ∧ (fConfigKeepZero.supportsCursors = false →
          ∀ (r : Except FPageErr (List Nat)) (cacheOut : FCache),
            fpage fConfigKeepZero fCacheCounts 1 20 = some (r, cacheOut) →
            cacheOut.cursoredObjects = [])) :=
  ⟨rfl, claim_c6_amended fConfigKeepZero fCacheCounts 1 20 rfl⟩

/-- Witness for C8 at the concrete keep-only-zero run: the slice is
non-empty and the call returns it. -/
theorem claim_c8_witness :
    ((1 : Nat) ≤ 1)
    ∧ (loopOutcome fConfigKeepZero emptyFCache 1 20
        = some ⟨[0], none, none, 2, some 1, emptyFCache⟩)
    ∧ ((((([0] : List Nat).drop (offsetOf fConfigKeepZero emptyFCache 1)).take
          fConfigKeepZero.perPage).isEmpty = true
        ∧ ¬(1 = 1 ∧ fConfigKeepZero.allowEmptyFirstPage = true)) →
        fpage fConfigKeepZero emptyFCache 1 20
          = some (Except.error FPageErr.emptyPage, emptyFCache))
    ∧ (¬(((([0] : List Nat).drop (offsetOf fConfigKeepZero emptyFCache 1)).take
          fConfigKeepZero.perPage).isEmpty = true
        ∧ ¬(1 = 1 ∧ fConfigKeepZero.allowEmptyFirstPage = true)) →
        ∃ cacheOut, fpage fConfigKeepZero emptyFCache 1 20
          = some (Except.ok ((([0] : List Nat).drop
              (offsetOf fConfigKeepZero emptyFCache 1)).take fConfigKeepZero.perPage),
            cacheOut)) := by
  refine ⟨by decide, by decide, ?_, ?_⟩
  · exact (claim_c8 fConfigKeepZero emptyFCache 1 20
      ⟨[0], none, none, 2, some 1, emptyFCache⟩ (by decide) (by decide)).1
  · exact (claim_c8 fConfigKeepZero emptyFCache 1 20
      ⟨[0], none, none, 2, some 1, emptyFCache⟩ (by decide) (by decide)).2

/-- The filtered logical index of a raw position: how many items of the
raw prefix before it survive the filter. -/
def countFilteredTo {α : Type} (cfg : FConfig α) (r : Nat) : Nat :=
  ((cfg.src.take r).filter (keepFn cfg)).length

/-- Consistency of the persisted checkpoint-to-cursor map: every stored
cursor resumes at a raw position whose filtered logical index is exactly
its checkpoint, so a fetch from it yields items whose filtered logical
index begins at the checkpoint. -/
def CursorsConsistent {α : Type} (cfg : FConfig α) (cache : FCache) : Prop :=
  ∀ c r, cacheGet cache.cursors c = some r → c = countFilteredTo cfg r

/-- Reading a key-value store after a write. -/
theorem cacheGet_cacheSet (m : List (Nat × Nat)) (k v c : Nat) :
    cacheGet (cacheSet m k v) c = if c = k then some v else cacheGet m c := by
  simp only [cacheGet, cacheSet]
  by_cases hck : c = k
  · subst hck
    rw [List.find?_cons_of_pos _ (by simp)]
    simp [if_pos rfl]
  · rw [List.find?_cons_of_neg _ ?_, if_neg hck]
    simp only [beq_iff_eq]
    intro hh
    exact hck hh.symm

/-- Consistency only depends on the stored cursors. -/
theorem cursorsConsistent_congr {α : Type} (cfg : FConfig α) (c1 c2 : FCache)
    (h : c2.cursors = c1.cursors) (hc : CursorsConsistent cfg c1) :
    CursorsConsistent cfg c2 :=
  fun c r hr => hc c r (h ▸ hr)

/-- Counting filtered items across one more fetch: the filtered index of
the fetch's end is the filtered index of its start plus the number of
surviving items in the fetched slice. -/
theorem countFilteredTo_fetch {α : Type} (cfg : FConfig α) (p : Nat) :
    countFilteredTo cfg (p + ((cfg.src.drop p).take cfg.batchSize).length)
      = countFilteredTo cfg p
        + (((cfg.src.drop p).take cfg.batchSize).filter (keepFn cfg)).length := by
  have hle : ((cfg.src.drop p).take cfg.batchSize).length ≤ cfg.batchSize := by
    rw [List.length_take]; omega
  have h2 : (cfg.src.drop p).take ((cfg.src.drop p).take cfg.batchSize).length
      = (cfg.src.drop p).take cfg.batchSize :=
    calc (cfg.src.drop p).take ((cfg.src.drop p).take cfg.batchSize).length
        = ((cfg.src.drop p).take cfg.batchSize).take
            ((cfg.src.drop p).take cfg.batchSize).length := by
          rw [List.take_take, Nat.min_eq_left hle]
      _ = (cfg.src.drop p).take cfg.batchSize := List.take_length _
  simp only [countFilteredTo]
  rw [take_add_eq p cfg.src _, h2, List.filter_append, List.length_append]

/-- The state after a non-breaking iteration with cursor support and a
next token present: the token is captured, and its checkpoint — the
replay start plus the new accumulator length — is registered and
persisted. -/
theorem loopBody_cursor_more {α : Type} (cfg : FConfig α) (psi offset : Nat)
    (ls : LoopState α) (hsup : cfg.supportsCursors = true)
    (hb : (loopBody cfg psi offset ls).2 = false)
    (hnext : effectiveFetchPos ls
        + ((cfg.src.drop (effectiveFetchPos ls)).take cfg.batchSize).length < cfg.src.length) :
    (loopBody cfg psi offset ls).1
      = ⟨ls.filtered
            ++ ((cfg.src.drop (effectiveFetchPos ls)).take cfg.batchSize).filter (keepFn cfg),
          promoteCursor ls,
          some (effectiveFetchPos ls
            + ((cfg.src.drop (effectiveFetchPos ls)).take cfg.batchSize).length),
          ls.startBottom,
          some ((cfg.src.drop (effectiveFetchPos ls)).take cfg.batchSize).length,
          { ls.cache with
            cursoredObjects := addCursoredObject ls.cache.cursoredObjects
              ((psi - offset)
                + (ls.filtered
                    ++ ((cfg.src.drop (effectiveFetchPos ls)).take cfg.batchSize).filter
                      (keepFn cfg)).length),
            cursors := cacheSet ls.cache.cursors
              ((psi - offset)
                + (ls.filtered
                    ++ ((cfg.src.drop (effectiveFetchPos ls)).take cfg.batchSize).filter
                      (keepFn cfg)).length)
              (effectiveFetchPos ls
                + ((cfg.src.drop (effectiveFetchPos ls)).take cfg.batchSize).length) }⟩ := by
  have hshort : ¬ ((cfg.src.drop (effectiveFetchPos ls)).take cfg.batchSize).length
      < cfg.batchSize := by
    intro hs
    rw [(loopBody_broke_iff cfg psi offset ls).2 hs] at hb
    exact Bool.noConfusion hb
  simp only [loopBody]
  rw [if_neg hshort, if_pos hsup, if_pos hnext]

/-- The state after a non-breaking iteration with cursor support and no
next token: the checkpoint is registered cursorless and the stored cursors
stay as they were. -/
theorem loopBody_cursor_end {α : Type} (cfg : FConfig α) (psi offset : Nat)
    (ls : LoopState α) (hsup : cfg.supportsCursors = true)
    (hb : (loopBody cfg psi offset ls).2 = false)
    (hnext : ¬ effectiveFetchPos ls
        + ((cfg.src.drop (effectiveFetchPos ls)).take cfg.batchSize).length < cfg.src.length) :
    (loopBody cfg psi offset ls).1
      = ⟨ls.filtered
            ++ ((cfg.src.drop (effectiveFetchPos ls)).take cfg.batchSize).filter (keepFn cfg),
          promoteCursor ls, none, ls.startBottom,
          some ((cfg.src.drop (effectiveFetchPos ls)).take cfg.batchSize).length,
          { ls.cache with
            cursoredObjects := addCursoredObject ls.cache.cursoredObjects
              ((psi - offset)
                + (ls.filtered
                    ++ ((cfg.src.drop (effectiveFetchPos ls)).take cfg.batchSize).filter
                      (keepFn cfg)).length),
            cursors := ls.cache.cursors }⟩ := by
  have hshort : ¬ ((cfg.src.drop (effectiveFetchPos ls)).take cfg.batchSize).length
      < cfg.batchSize := by
    intro hs
    rw [(loopBody_broke_iff cfg psi offset ls).2 hs] at hb
    exact Bool.noConfusion hb
  simp only [loopBody]
  rw [if_neg hshort, if_pos hsup, if_neg hnext]

/-- The replay invariant: the persisted cursors are consistent, and either
the source has no cursor support, or the current fetch position sits at
the filtered index the accumulator has reached (the good mode), or the
source end has been met exactly and no further token will ever be stored
(the spent mode). -/
def ReplayInv {α : Type} (cfg : FConfig α) (replayStart : Nat) (ls : LoopState α) : Prop :=
  CursorsConsistent cfg ls.cache ∧
  (cfg.supportsCursors = false
   ∨ replayStart + ls.filtered.length = countFilteredTo cfg (effectiveFetchPos ls)
   ∨ (ls.nextCursor = none
      ∧ cfg.src.length ≤ effectiveFetchPos ls + cfg.batchSize))

/-- A non-breaking iteration preserves the replay invariant. -/
theorem replayInv_step {α : Type} (cfg : FConfig α) (psi offset : Nat)
    (ls : LoopState α) (hInv : ReplayInv cfg (psi - offset) ls)
    (hb : (loopBody cfg psi offset ls).2 = false) :
    ReplayInv cfg (psi - offset) (loopBody cfg psi offset ls).1 := by
  cases hsup : cfg.supportsCursors with
  | false =>
    rw [loopBody_noCursor_step cfg psi offset ls hsup hb]
    exact ⟨hInv.1, Or.inl hsup⟩
  | true =>
    have hrlen : ((cfg.src.drop (effectiveFetchPos ls)).take cfg.batchSize).length
        = min cfg.batchSize (cfg.src.length - effectiveFetchPos ls) := by
      rw [List.length_take, List.length_drop]
    have hfull : ¬ ((cfg.src.drop (effectiveFetchPos ls)).take cfg.batchSize).length
        < cfg.batchSize := by
      intro hs
      rw [(loopBody_broke_iff cfg psi offset ls).2 hs] at hb
      exact Bool.noConfusion hb
    by_cases hnext : effectiveFetchPos ls
        + ((cfg.src.drop (effectiveFetchPos ls)).take cfg.batchSize).length < cfg.src.length
    · rw [loopBody_cursor_more cfg psi offset ls hsup hb hnext]
      rcases hInv.2 with hsup2 | hGS | hSP
      · rw [hsup2] at hsup; exact Bool.noConfusion hsup
      · have hnew : (psi - offset)
            + (ls.filtered
                ++ ((cfg.src.drop (effectiveFetchPos ls)).take cfg.batchSize).filter
                  (keepFn cfg)).length
            = countFilteredTo cfg (effectiveFetchPos ls
                + ((cfg.src.drop (effectiveFetchPos ls)).take cfg.batchSize).length) := by
          rw [List.length_append, countFilteredTo_fetch cfg (effectiveFetchPos ls)]
          omega
        constructor
        · intro c rr hcr
          rw [show ({ ls.cache with
                cursoredObjects := addCursoredObject ls.cache.cursoredObjects _,
                cursors := cacheSet ls.cache.cursors _ _ } : FCache).cursors
              = cacheSet ls.cache.cursors
                ((psi - offset)
                  + (ls.filtered
                      ++ ((cfg.src.drop (effectiveFetchPos ls)).take cfg.batchSize).filter
                        (keepFn cfg)).length)
                (effectiveFetchPos ls
                  + ((cfg.src.drop (effectiveFetchPos ls)).take cfg.batchSize).length)
              from rfl] at hcr
          rw [cacheGet_cacheSet] at hcr
          split at hcr
          · rename_i hceq
            injection hcr with hrr
            rw [hceq, ← hrr]
            exact hnew
          · exact hInv.1 c rr hcr
        · right; left
          exact hnew
      · exfalso
        omega
    · rw [loopBody_cursor_end cfg psi offset ls hsup hb hnext]
      refine ⟨hInv.1, Or.inr (Or.inr ⟨rfl, ?_⟩)⟩
      have heff : effectiveFetchPos
          (⟨ls.filtered
              ++ ((cfg.src.drop (effectiveFetchPos ls)).take cfg.batchSize).filter (keepFn cfg),
            promoteCursor ls, none, ls.startBottom,
            some ((cfg.src.drop (effectiveFetchPos ls)).take cfg.batchSize).length,
            { ls.cache with
              cursoredObjects := addCursoredObject ls.cache.cursoredObjects
                ((psi - offset)
                  + (ls.filtered
                      ++ ((cfg.src.drop (effectiveFetchPos ls)).take cfg.batchSize).filter
                        (keepFn cfg)).length),
              cursors := ls.cache.cursors }⟩ : LoopState α) = effectiveFetchPos ls := rfl
      rw [heff]
      omega

/-- Checkpoint registration: an iteration either leaves the checkpoint set
unchanged or appends exactly the replay start plus the new accumulator
length — the filtered logical index immediately after the batch. -/
theorem loopBody_register {α : Type} (cfg : FConfig α) (psi offset : Nat)
    (ls2 : LoopState α) :
    (loopBody cfg psi offset ls2).1.cache.cursoredObjects = ls2.cache.cursoredObjects
    ∨ (loopBody cfg psi offset ls2).1.cache.cursoredObjects
        = ls2.cache.cursoredObjects
          ++ [(psi - offset)
              + (ls2.filtered
                  ++ ((cfg.src.drop (effectiveFetchPos ls2)).take cfg.batchSize).filter
                    (keepFn cfg)).length] := by
  simp only [loopBody]
  split
  · left; rfl
  · split
    · simp only [addCursoredObject]
      split
      · left; rfl
      · right; rfl
    · left; rfl

/-- The nearest checkpoint never exceeds the target index. -/
theorem findNearestObjWithCursor_le (l : List Nat) (idx : Nat) :
    findNearestObjWithCursor l idx ≤ idx := by
  simp only [findNearestObjWithCursor]
  cases hl : l.filter (fun c => decide (c ≤ idx)) with
  | nil => exact Nat.zero_le idx
  | cons y ys =>
    apply foldl_max_le
    · exact Nat.zero_le idx
    · intro x hx
      have hxf : x ∈ l.filter (fun c => decide (c ≤ idx)) := by rw [hl]; exact hx
      simpa using (List.mem_filter.1 hxf).2

/-- C1 (corrected): checkpoints are registered at the FILTERED logical
index immediately after the batch — the replay start plus the accumulator
length — not at the raw index; consequently, when the call starts from a
found cursor or from checkpoint 0, a consistent cursor map stays
consistent: every persisted cursor resumes at the raw position whose
filtered logical index equals its checkpoint. -/
theorem claim_c1_amended {α : Type} (cfg : FConfig α) (cache : FCache) (number fuel : Nat)
    (r : Except FPageErr (List α)) (cacheOut : FCache)
    (hcons : CursorsConsistent cfg cache)
    (hstart : (startCursorOf cfg cache number).isSome = true
      ∨ findNearestObjWithCursor cache.cursoredObjects (pageStartIndexOf cfg number) = 0)
    (h : fpage cfg cache number fuel = some (r, cacheOut)) :
    CursorsConsistent cfg cacheOut
    ∧ ∀ ls2 : LoopState α,
        (loopBody cfg (pageStartIndexOf cfg number)
            (offsetOf cfg cache number) ls2).1.cache.cursoredObjects
            = ls2.cache.cursoredObjects
        ∨ (loopBody cfg (pageStartIndexOf cfg number)
              (offsetOf cfg cache number) ls2).1.cache.cursoredObjects
            = ls2.cache.cursoredObjects
              ++ [(pageStartIndexOf cfg number - offsetOf cfg cache number)
                  + (ls2.filtered
                      ++ ((cfg.src.drop (effectiveFetchPos ls2)).take cfg.batchSize).filter
                        (keepFn cfg)).length] := by
  refine ⟨?_, fun ls2 => loopBody_register cfg (pageStartIndexOf cfg number)
    (offsetOf cfg cache number) ls2⟩
  have hle : findNearestObjWithCursor cache.cursoredObjects (pageStartIndexOf cfg number)
      ≤ pageStartIndexOf cfg number :=
    findNearestObjWithCursor_le _ _
  have hoff : offsetOf cfg cache number
      = pageStartIndexOf cfg number
        - findNearestObjWithCursor cache.cursoredObjects (pageStartIndexOf cfg number) := rfl
  have hrs : pageStartIndexOf cfg number - offsetOf cfg cache number
      = findNearestObjWithCursor cache.cursoredObjects (pageStartIndexOf cfg number) := by
    rw [hoff]; omega
  have hinit : ReplayInv cfg
      (pageStartIndexOf cfg number - offsetOf cfg cache number)
      (initLoopState cfg cache number) := by
    constructor
    · exact hcons
    · right; left
      rcases hstart with hsome | h0
      · obtain ⟨r0, hr0⟩ := Option.isSome_iff_exists.1 hsome
        have hcond : cfg.supportsCursors = true
            ∧ 0 < findNearestObjWithCursor cache.cursoredObjects
                (pageStartIndexOf cfg number) := by
          by_contra hcn
          have hnone : startCursorOf cfg cache number = none := by
            simp only [startCursorOf, getCursorAndOffset]
            rw [if_neg hcn]
          rw [hnone] at hr0
          exact Option.noConfusion hr0
        have hget : cacheGet cache.cursors
            (findNearestObjWithCursor cache.cursoredObjects (pageStartIndexOf cfg number))
            = some r0 := by
          have hsome2 : startCursorOf cfg cache number
              = cacheGet cache.cursors
                  (findNearestObjWithCursor cache.cursoredObjects
                    (pageStartIndexOf cfg number)) := by
            simp only [startCursorOf, getCursorAndOffset]
            rw [if_pos hcond]
          rw [← hsome2]; exact hr0
        have heq := hcons _ r0 hget
        have heff : effectiveFetchPos (initLoopState cfg cache number) = r0 := by
          simp [initLoopState, effectiveFetchPos, promoteCursor, startCursorOf] at hr0 ⊢
          rw [show (getCursorAndOffset cfg cache (pageStartIndexOf cfg number)).1 = some r0
            from hr0]
        rw [heff]
        have hfl : (initLoopState cfg cache number).filtered = ([] : List α) := rfl
        rw [hfl, hrs]
        simpa using heq
      · have hsc : startCursorOf cfg cache number = none := by
          simp only [startCursorOf, getCursorAndOffset]
          rw [if_neg (by rw [h0]; simp)]
        have heff : effectiveFetchPos (initLoopState cfg cache number)
            = pageStartIndexOf cfg number - offsetOf cfg cache number := by
          simp [initLoopState, effectiveFetchPos, promoteCursor, hsc]
        rw [heff, hrs, h0]
        have hfl : (initLoopState cfg cache number).filtered = ([] : List α) := rfl
        rw [hfl]
        simp [countFilteredTo]
  simp only [fpage] at h
  by_cases h1 : number < 1
  · rw [if_pos h1] at h
    have h2 := Option.some.inj h
    have hc : cache = cacheOut := congrArg Prod.snd h2
    rw [← hc]; exact hcons
  · rw [if_neg h1] at h
    cases hlo : loopOutcome cfg cache number fuel with
    | none => rw [hlo] at h; exact absurd h (by simp)
    | some ls =>
      rw [hlo] at h
      have h2 := Option.some.inj h
      have hc : (finishPage cfg number (pageStartIndexOf cfg number)
          (offsetOf cfg cache number) ls).2 = cacheOut := congrArg Prod.snd h2
      have hQ : CursorsConsistent cfg ls.cache := by
        refine loopGo_elim cfg (pageStartIndexOf cfg number) (offsetOf cfg cache number)
          (ReplayInv cfg (pageStartIndexOf cfg number - offsetOf cfg cache number))
          (fun q => CursorsConsistent cfg q.cache)
          (fun q hq _ => hq.1)
          (fun q hq _ hb => ?_)
          (fun q hq _ hb => replayInv_step cfg (pageStartIndexOf cfg number)
            (offsetOf cfg cache number) q hq hb)
          fuel (initLoopState cfg cache number) ls hinit hlo
        show CursorsConsistent cfg (loopBody cfg (pageStartIndexOf cfg number)
          (offsetOf cfg cache number) q).1.cache
        rw [(loopBody_break_fields cfg (pageStartIndexOf cfg number)
          (offsetOf cfg cache number) q hb).2.1]
        exact hq.1
      refine cursorsConsistent_congr cfg ls.cache cacheOut ?_ hQ
      rw [← hc]
      exact (finishPage_cursorState cfg number (pageStartIndexOf cfg number)
        (offsetOf cfg cache number) ls).2

/-- Witness for C1 (amended) at the concrete even-filter cold run: the
persisted map after page(1) holds checkpoint 1 with cursor position 2, and
indeed exactly 1 filter-surviving item precedes raw position 2. -/
theorem claim_c1_amended_witness :
    CursorsConsistent fConfigEvenPairs emptyFCache
    ∧ ((startCursorOf fConfigEvenPairs emptyFCache 1).isSome = true
      ∨ findNearestObjWithCursor emptyFCache.cursoredObjects
          (pageStartIndexOf fConfigEvenPairs 1) = 0)
    ∧ (fpage fConfigEvenPairs emptyFCache 1 20
        = some (Except.ok [0], (⟨none, some 2, [1, 2], [(1, 2)]⟩ : FCache)))
    ∧ (CursorsConsistent fConfigEvenPairs (⟨none, some 2, [1, 2], [(1, 2)]⟩ : FCache)
      ∧ ∀ ls2 : LoopState Nat,
          (loopBody fConfigEvenPairs (pageStartIndexOf fConfigEvenPairs 1)
              (offsetOf fConfigEvenPairs emptyFCache 1) ls2).1.cache.cursoredObjects
              = ls2.cache.cursoredObjects
          ∨ (loopBody fConfigEvenPairs (pageStartIndexOf fConfigEvenPairs 1)
                (offsetOf fConfigEvenPairs emptyFCache 1) ls2).1.cache.cursoredObjects
              = ls2.cache.cursoredObjects
                ++ [(pageStartIndexOf fConfigEvenPairs 1
                    - offsetOf fConfigEvenPairs emptyFCache 1)
                    + (ls2.filtered
                        ++ ((fConfigEvenPairs.src.drop (effectiveFetchPos ls2)).take
                          fConfigEvenPairs.batchSize).filter
                          (keepFn fConfigEvenPairs)).length]) := by
  have hcons : CursorsConsistent fConfigEvenPairs emptyFCache := by
    intro c r hr
    simp [cacheGet, emptyFCache] at hr
  refine ⟨hcons, Or.inr (by decide), by decide, ?_⟩
  exact claim_c1_amended fConfigEvenPairs emptyFCache 1 20 (Except.ok [0])
    ⟨none, some 2, [1, 2], [(1, 2)]⟩ hcons (Or.inr (by decide)) (by decide)

end Potatopage
